import Mathlib

/-!
Shallow embedding of the `internal/crypto` package of the stecatnography
repository (files `aes.go` and the PBKDF2 key-derivation code), together with
theorems settling the specification claims about it.

Bytes are modelled as `Nat` values (kept below 256 by construction where it
matters), byte slices as `List Nat`.  Go functions returning `([]byte, error)`
become functions into a result type that distinguishes a normal return, a
returned non-nil error, and a runtime panic (the Go `cipher.Block.Encrypt`
panics on short input).
-/

namespace Crypto

/-- Error values returned by the Go code: `aes.KeySizeError(len(key))` from
`aes.NewCipher`, and an (unspecified) error from `crypto/rand.Read`. -/
inductive GoError
  | keySizeError (size : Nat)
  | randReadError
  deriving DecidableEq

/-- Runtime panics raised by the Go `crypto/aes` block implementation when a
source or destination slice is shorter than one 16-byte block. -/
inductive GoPanic
  | inputNotFullBlock
  deriving DecidableEq

/-- Result of a Go call that can return a value, return a non-nil error, or
panic. -/
inductive GoResult (α : Type)
  | ok (val : α)
  | err (e : GoError)
  | panic (p : GoPanic)
  deriving DecidableEq

/-- Constant `aes.BlockSize` from the Go `crypto/aes` package: 16 bytes. -/
def BlockSize : Nat := 16

/-- The Go `cipher.Block` interface as the source code uses it: a single-block
encryption and decryption on 16-byte blocks.  The three properties are the
contract of `crypto/aes` (a block cipher is a length-preserving permutation
of 16-byte blocks); every theorem about `EncryptAES256`/`DecryptAES256` is
quantified over an arbitrary such cipher, so it holds in particular for the
real AES instances Go constructs. -/
structure BlockCipher where
  encB : List Nat → List Nat
  decB : List Nat → List Nat
  enc_len : ∀ b : List Nat, b.length = 16 → (encB b).length = 16
  dec_len : ∀ b : List Nat, b.length = 16 → (decB b).length = 16
  dec_enc : ∀ b : List Nat, b.length = 16 → decB (encB b) = b

/-- The Go `aes.NewCipher(key)`: keys of length 16, 24 or 32 select AES-128,
AES-192 or AES-256; any other length returns `aes.KeySizeError(len(key))`.
`AES` is the (abstract) family assigning to each accepted key its block
cipher. -/
def aesNewCipher (AES : List Nat → BlockCipher) (key : List Nat) :
    Except GoError BlockCipher :=
  if key.length = 16 ∨ key.length = 24 ∨ key.length = 32 then
    Except.ok (AES key)
  else
    Except.error (GoError.keySizeError key.length)

/-- Models `out := make([]byte, len(src)); b.Encrypt(out, src)` (and likewise
`Decrypt`) from the Go source.  The Go single-block `Encrypt` panics when the
source holds less than one full 16-byte block; otherwise it transforms
exactly the first 16 bytes, and every byte of `out` past the first block
keeps the zero value `make` gave it. -/
def blockApply (f : List Nat → List Nat) (src : List Nat) : GoResult (List Nat) :=
  if src.length < 16 then
    GoResult.panic GoPanic.inputNotFullBlock
  else
    GoResult.ok (f (src.take 16) ++ List.replicate (src.length - 16) 0)

/-- `EncryptAES256(data, key, iv)` from `aes.go`: builds the cipher with
`aes.NewCipher(key)` (returning its error if any) and then calls the
single-block `Encrypt` once on the whole buffer.  Note that the `iv`
parameter is never read. -/
def EncryptAES256 (AES : List Nat → BlockCipher)
    (data key iv : List Nat) : GoResult (List Nat) :=
  match aesNewCipher AES key with
  | Except.error e => GoResult.err e
  | Except.ok block => blockApply block.encB data

/-- `DecryptAES256(encryptedData, key, iv)` from `aes.go`: builds the cipher
with `aes.NewCipher(key)` and calls the single-block `Decrypt` once on the
whole buffer.  The `iv` parameter is never read, and no authentication tag
of any kind is checked. -/
def DecryptAES256 (AES : List Nat → BlockCipher)
    (encryptedData key iv : List Nat) : GoResult (List Nat) :=
  match aesNewCipher AES key with
  | Except.error e => GoResult.err e
  | Except.ok block => blockApply block.decB encryptedData

/-- `GenerateIV()` from `aes.go`: `iv := make([]byte, aes.BlockSize)` (16 zero
bytes), then `rand.Read(iv)` overwrites a prefix of it with the bytes the
OS random source produced (all 16 on success, possibly fewer on error), and
`iv, err` is returned unconditionally — also when `err` is non-nil.
`randRead` is the byte sequence the random source wrote and `err` its error
result. -/
def GenerateIV (randRead : List Nat) (err : Option GoError) :
    List Nat × Option GoError :=
  (randRead.take 16 ++ List.replicate (16 - randRead.length) 0, err)

/-- Flip bit `i` (bit `i % 8` of byte `i / 8`) of a byte sequence. -/
def flipBit (i : Nat) (l : List Nat) : List Nat :=
  l.set (i / 8) (Nat.xor (l.getD (i / 8) 0) (2 ^ (i % 8)))

/-- A concrete instance of the `cipher.Block` contract (the identity
permutation on 16-byte blocks), used only to instantiate the universally
quantified theorems at concrete inputs. -/
def idAES : List Nat → BlockCipher := fun _ =>
  { encB := fun b => b
    decB := fun b => b
    enc_len := fun _ h => h
    dec_len := fun _ h => h
    dec_enc := fun _ _ => rfl }

/-! SHA-256 (FIPS 180-4), as used by the Go `crypto/sha256` package, on byte lists.
32-bit words are `Nat` values kept below `2 ^ 32` by explicit `% 4294967296`
reductions. -/

/-- Addition modulo `2 ^ 32`. -/
def add32 (a b : Nat) : Nat := (a + b) % 4294967296

/-- Right rotation of a 32-bit word. -/
def rotr32 (x n : Nat) : Nat := ((x >>> n) ||| (x <<< (32 - n))) % 4294967296

/-- SHA-256 big sigma 0. -/
def bsig0 (x : Nat) : Nat := Nat.xor (rotr32 x 2) (Nat.xor (rotr32 x 13) (rotr32 x 22))

/-- SHA-256 big sigma 1. -/
def bsig1 (x : Nat) : Nat := Nat.xor (rotr32 x 6) (Nat.xor (rotr32 x 11) (rotr32 x 25))

/-- SHA-256 small sigma 0. -/
def ssig0 (x : Nat) : Nat := Nat.xor (rotr32 x 7) (Nat.xor (rotr32 x 18) (x >>> 3))

/-- SHA-256 small sigma 1. -/
def ssig1 (x : Nat) : Nat := Nat.xor (rotr32 x 17) (Nat.xor (rotr32 x 19) (x >>> 10))

/-- SHA-256 choice function `Ch(e,f,g)`; the complement of `e` is taken inside
32 bits. -/
def chFn (e f g : Nat) : Nat := Nat.xor (Nat.land e f) (Nat.land (Nat.xor e 4294967295) g)

/-- SHA-256 majority function `Maj(a,b,c)`. -/
def majFn (a b c : Nat) : Nat :=
  Nat.xor (Nat.land a b) (Nat.xor (Nat.land a c) (Nat.land b c))

/-- The 64 SHA-256 round constants. -/
def shaK : List Nat :=
  [1116352408, 1899447441, 3049323471, 3921009573, 961987163, 1508970993,
   2453635748, 2870763221, 3624381080, 310598401, 607225278, 1426881987,
   1925078388, 2162078206, 2614888103, 3248222580, 3835390401, 4022224774,
   264347078, 604807628, 770255983, 1249150122, 1555081692, 1996064986,
   2554220882, 2821834349, 2952996808, 3210313671, 3336571891, 3584528711,
   113926993, 338241895, 666307205, 773529912, 1294757372, 1396182291,
   1695183700, 1986661051, 2177026350, 2456956037, 2730485921, 2820302411,
   3259730800, 3345764771, 3516065817, 3600352804, 4094571909, 275423344,
   430227734, 506948616, 659060556, 883997877, 958139571, 1322822218,
   1537002063, 1747873779, 1955562222, 2024104815, 2227730452, 2361852424,
   2428436474, 2756734187, 3204031479, 3329325298]

/-- Big-endian 8-byte encoding of a number (the length field of SHA-256
padding). -/
def be64 (n : Nat) : List Nat :=
  [(n >>> 56) % 256, (n >>> 48) % 256, (n >>> 40) % 256, (n >>> 32) % 256,
   (n >>> 24) % 256, (n >>> 16) % 256, (n >>> 8) % 256, n % 256]

/-- Big-endian 4-byte encoding of a 32-bit word. -/
def be32w (n : Nat) : List Nat :=
  [(n >>> 24) % 256, (n >>> 16) % 256, (n >>> 8) % 256, n % 256]

/-- SHA-256 padding: append `0x80`, then zeros, then the 8-byte bit length,
reaching a multiple of 64 bytes. -/
def shaPad (msg : List Nat) : List Nat :=
  msg ++ 128 :: (List.replicate ((64 - (msg.length + 9) % 64) % 64) 0 ++ be64 (8 * msg.length))

/-- Group bytes into big-endian 32-bit words, four bytes at a time (fuel
recursion on the list length). -/
def bytesToWordsAux : Nat → List Nat → List Nat
  | 0, _ => []
  | _, [] => []
  | fuel + 1, l =>
    (l.take 4).foldl (fun acc b => acc * 256 + b) 0 :: bytesToWordsAux fuel (l.drop 4)

/-- Group bytes into big-endian 32-bit words. -/
def bytesToWords (l : List Nat) : List Nat := bytesToWordsAux l.length l

/-- One message-schedule extension step: append
`ssig1 w[t-2] + w[t-7] + ssig0 w[t-15] + w[t-16]`. -/
def scheduleStep (w : List Nat) : List Nat :=
  w ++ [add32 (add32 (ssig1 (w.getD (w.length - 2) 0)) (w.getD (w.length - 7) 0))
              (add32 (ssig0 (w.getD (w.length - 15) 0)) (w.getD (w.length - 16) 0))]

/-- Extend the 16 words of a chunk to the 64-word message schedule. -/
def schedule (w16 : List Nat) : List Nat :=
  (List.range 48).foldl (fun w _ => scheduleStep w) w16

/-- The eight 32-bit working variables of SHA-256. -/
structure Sha256State where
  a : Nat
  b : Nat
  c : Nat
  d : Nat
  e : Nat
  f : Nat
  g : Nat
  h : Nat
  deriving DecidableEq

/-- One SHA-256 compression round; `kw` is `K[t] + W[t] (mod 2^32)`. -/
def shaRound (s : Sha256State) (kw : Nat) : Sha256State :=
  let t1 := add32 s.h (add32 (bsig1 s.e) (add32 (chFn s.e s.f s.g) kw))
  let t2 := add32 (bsig0 s.a) (majFn s.a s.b s.c)
  { a := add32 t1 t2, b := s.a, c := s.b, d := s.c,
    e := add32 s.d t1, f := s.e, g := s.f, h := s.g }

/-- The SHA-256 initial hash value. -/
def shaH0 : Sha256State :=
  { a := 1779033703, b := 3144134277, c := 1013904242, d := 2773480762,
    e := 1359893119, f := 2600822924, g := 528734635, h := 1541459225 }

/-- Pointwise addition modulo `2 ^ 32` of two states (the feed-forward at the
end of each compression). -/
def addStates (x y : Sha256State) : Sha256State :=
  { a := add32 x.a y.a, b := add32 x.b y.b, c := add32 x.c y.c, d := add32 x.d y.d,
    e := add32 x.e y.e, f := add32 x.f y.f, g := add32 x.g y.g, h := add32 x.h y.h }

/-- Compress one 64-byte chunk into the running state. -/
def compressChunk (st : Sha256State) (chunk : List Nat) : Sha256State :=
  addStates st ((List.zipWith add32 shaK (schedule (bytesToWords chunk))).foldl shaRound st)

/-- Split a byte list into 64-byte chunks (fuel recursion on the length). -/
def chunksAux : Nat → List Nat → List (List Nat)
  | 0, _ => []
  | _, [] => []
  | fuel + 1, l => l.take 64 :: chunksAux fuel (l.drop 64)

/-- Split a byte list into 64-byte chunks. -/
def chunks64 (l : List Nat) : List (List Nat) := chunksAux l.length l

/-- Serialize the final state as the 32-byte big-endian digest. -/
def digestBytes (s : Sha256State) : List Nat :=
  be32w s.a ++ be32w s.b ++ be32w s.c ++ be32w s.d ++
  be32w s.e ++ be32w s.f ++ be32w s.g ++ be32w s.h

/-- SHA-256 of a byte list. -/
def sha256 (msg : List Nat) : List Nat :=
  digestBytes ((chunks64 (shaPad msg)).foldl compressChunk shaH0)

/-! HMAC-SHA256 (RFC 2104) and PBKDF2 (RFC 8018), as implemented by the Go
packages `crypto/hmac` and `crypto/pbkdf2`, which `DeriveKey` calls. -/

/-- HMAC-SHA256: a key longer than the 64-byte block is first hashed, the key
is zero-padded to 64 bytes, and the digest is
`H((k0 xor opad) ++ H((k0 xor ipad) ++ msg))`. -/
def hmacSha256 (key msg : List Nat) : List Nat :=
  let k1 := if 64 < key.length then sha256 key else key
  let k0 := k1 ++ List.replicate (64 - k1.length) 0
  sha256 ((k0.map (fun x => Nat.xor x 92)) ++
    sha256 ((k0.map (fun x => Nat.xor x 54)) ++ msg))

/-- Pointwise xor of two byte lists (the Go loop `T[x] ^= U[x]`; both operands
always have the HMAC output length 32 here). -/
def xorBytes (a b : List Nat) : List Nat := List.zipWith Nat.xor a b

/-- The inner PBKDF2 loop of the Go `crypto/internal/fips140/pbkdf2`: given the
pair `(T, U)`, each step replaces `U` by `HMAC(password, U)` and xors it
into `T`; `n` counts the remaining iterations (`iter - 1` at the start,
since `U₁` itself seeds both `T` and `U`). -/
def pbkdf2Loop (password : List Nat) : Nat → List Nat × List Nat → List Nat × List Nat
  | 0, tu => tu
  | n + 1, (t, u) => pbkdf2Loop password n (xorBytes t (hmacSha256 password u), hmacSha256 password u)

/-- The PBKDF2 block function `F(password, salt, iter, i)` as Go computes it:
`U₁ = HMAC(password, salt ++ INT(i))`, then `iter - 1` further HMAC
iterations xored together. -/
def pbkdf2F (password salt : List Nat) (iter i : Nat) : List Nat :=
  (pbkdf2Loop password (iter - 1)
    (hmacSha256 password (salt ++ be32w i), hmacSha256 password (salt ++ be32w i))).1

/-- The Go call `pbkdf2.Key(sha256.New, password, salt, iter, keyLength)`: the
concatenation of the blocks `F(password, salt, iter, 1..numBlocks)`,
truncated to `keyLength` bytes.  In its default (non-FIPS-only) mode the Go
function never returns a non-nil error. -/
def pbkdf2Key (password salt : List Nat) (iter keyLength : Nat) : List Nat :=
  (((List.range ((keyLength + 31) / 32)).map (fun i => pbkdf2F password salt iter (i + 1))).flatten).take
    keyLength

/-! The `internal/crypto` KDF code: constants and `DeriveKey`. -/

/-- `SaltSize` constant from the source: 32. -/
def SaltSize : Nat := 32

/-- `KeySize` constant from the source: 32. -/
def KeySize : Nat := 32

/-- `Iterations` constant from the source: 100000. -/
def Iterations : Nat := 100000

/-- UTF-8 encoding of one character (what the Go conversion `[]byte(password)`
does to each rune). -/
def charUTF8 (c : Char) : List Nat :=
  let n := c.toNat
  if n < 128 then [n]
  else if n < 2048 then [192 + n / 64, 128 + n % 64]
  else if n < 65536 then [224 + n / 4096, 128 + (n / 64) % 64, 128 + n % 64]
  else [240 + n / 262144, 128 + (n / 4096) % 64, 128 + (n / 64) % 64, 128 + n % 64]

/-- The UTF-8 bytes of a Go string. -/
def strBytes (s : String) : List Nat := s.toList.flatMap charUTF8

/-- `DeriveKey(password, salt)` from the source:
`return pbkdf2.Key(sha256.New, password, salt, Iterations, KeySize)`.
The salt is passed through unexamined; the error component is the one the Go
`pbkdf2.Key` returns, which is always nil outside FIPS-only mode. -/
def DeriveKey (password : String) (salt : List Nat) : List Nat × Option GoError :=
  (pbkdf2Key (strBytes password) salt Iterations KeySize, none)

/-! Specification-side PBKDF2, written directly from the standard description
(RFC 8018, the iterated keyed hash of the specification): `U₁ = PRF(P, S ++ INT(i))`,
`Uₙ₊₁ = PRF(P, Uₙ)`, and the block is `U₁ xor U₂ xor ... xor U_c`.  It is
compared with the Go-translated `pbkdf2Key` in the refinement lemma
`pbkdf2Key_eq_spec`. -/

/-- The PBKDF2 `U` sequence with PRF HMAC-SHA256: `pbkdf2U p seed n` is
`U_{n+1}` of RFC 8018 for the given seed `S ++ INT(i)`. -/
def pbkdf2U (password seed : List Nat) : Nat → List Nat
  | 0 => hmacSha256 password seed
  | n + 1 => hmacSha256 password (pbkdf2U password seed n)

/-- Partial xors of the `U` sequence: `pbkdf2SpecT p seed n` is
`U₁ xor ... xor U_{n+1}`. -/
def pbkdf2SpecT (password seed : List Nat) : Nat → List Nat
  | 0 => pbkdf2U password seed 0
  | n + 1 => xorBytes (pbkdf2SpecT password seed n) (pbkdf2U password seed (n + 1))

/-- PBKDF2 as the standard states it: concatenate the blocks
`T_i = U₁ xor ... xor U_iter` (seed `salt ++ INT(i)`) and truncate to
`keyLength` bytes. -/
def pbkdf2SpecKey (password salt : List Nat) (iter keyLength : Nat) : List Nat :=
  (((List.range ((keyLength + 31) / 32)).map
      (fun i => pbkdf2SpecT password (salt ++ be32w (i + 1)) (iter - 1))).flatten).take keyLength

/-! Helper lemmas. -/

/-- The Go accumulation loop computes exactly the partial xors of the `U`
sequence. -/
theorem pbkdf2Loop_spec (p seed : List Nat) :
    ∀ n k, pbkdf2Loop p n (pbkdf2SpecT p seed k, pbkdf2U p seed k)
      = (pbkdf2SpecT p seed (k + n), pbkdf2U p seed (k + n)) := by
  intro n
  induction n with
  | zero => intro k; rfl
  | succ n ih =>
    intro k
    have h1 : pbkdf2Loop p (n + 1) (pbkdf2SpecT p seed k, pbkdf2U p seed k)
        = pbkdf2Loop p n (pbkdf2SpecT p seed (k + 1), pbkdf2U p seed (k + 1)) := rfl
    rw [h1, ih (k + 1)]
    have h2 : k + 1 + n = k + (n + 1) := by omega
    rw [h2]

/-- The Go block function equals the `T_i` of the specification. -/
theorem pbkdf2F_eq_spec (p s : List Nat) (iter i : Nat) :
    pbkdf2F p s iter i = pbkdf2SpecT p (s ++ be32w i) (iter - 1) := by
  have h := pbkdf2Loop_spec p (s ++ be32w i) (iter - 1) 0
  have h0 : (pbkdf2SpecT p (s ++ be32w i) 0, pbkdf2U p (s ++ be32w i) 0)
      = (hmacSha256 p (s ++ be32w i), hmacSha256 p (s ++ be32w i)) := rfl
  rw [h0, Nat.zero_add] at h
  unfold pbkdf2F
  rw [h]

/-- The Go `pbkdf2.Key` equals the specification-side PBKDF2. -/
theorem pbkdf2Key_eq_spec (p s : List Nat) (iter keyLength : Nat) :
    pbkdf2Key p s iter keyLength = pbkdf2SpecKey p s iter keyLength := by
  unfold pbkdf2Key pbkdf2SpecKey
  simp only [pbkdf2F_eq_spec]

/-- The SHA-256 digest always has 32 bytes. -/
theorem sha256_length (msg : List Nat) : (sha256 msg).length = 32 := by
  simp [sha256, digestBytes, be32w]

/-- HMAC-SHA256 always produces 32 bytes. -/
theorem hmacSha256_length (key msg : List Nat) : (hmacSha256 key msg).length = 32 := by
  simp [hmacSha256, sha256_length]

/-- Every element of the `U` sequence has 32 bytes. -/
theorem pbkdf2U_length (p seed : List Nat) (n : Nat) : (pbkdf2U p seed n).length = 32 := by
  cases n with
  | zero => exact hmacSha256_length p seed
  | succ n => exact hmacSha256_length p (pbkdf2U p seed n)

/-- Every partial xor of the `U` sequence has 32 bytes. -/
theorem pbkdf2SpecT_length (p seed : List Nat) (n : Nat) :
    (pbkdf2SpecT p seed n).length = 32 := by
  induction n with
  | zero => exact pbkdf2U_length p seed 0
  | succ n ih =>
    show (xorBytes (pbkdf2SpecT p seed n) (pbkdf2U p seed (n + 1))).length = 32
    rw [xorBytes, List.length_zipWith, ih, pbkdf2U_length]
    simp

/-- `DeriveKey` always produces a 32-byte key. -/
theorem deriveKey_length (p : String) (s : List Nat) : (DeriveKey p s).1.length = 32 := by
  simp only [DeriveKey]
  rw [pbkdf2Key_eq_spec]
  unfold pbkdf2SpecKey
  rw [show (KeySize + 31) / 32 = 1 from rfl, show List.range 1 = [0] from rfl,
    List.map_singleton]
  simp [KeySize, List.length_take, pbkdf2SpecT_length]

/-- Prefix extraction from an append, phrased for 16-byte blocks. -/
theorem take_append_of_length (a b : List Nat) (h : a.length = 16) :
    (a ++ b).take 16 = a := by
  rw [← h, List.take_left]

/-- Suffix extraction from an append, phrased for 16-byte blocks. -/
theorem drop_append_of_length (a b : List Nat) (h : a.length = 16) :
    (a ++ b).drop 16 = b := by
  rw [← h, List.drop_left]

/-- With a 32-byte key, `aes.NewCipher` succeeds and yields the cipher for
that key. -/
theorem aesNewCipher_ok (AES : List Nat → BlockCipher) (key : List Nat)
    (hk : key.length = 32) : aesNewCipher AES key = Except.ok (AES key) := by
  simp [aesNewCipher, hk]

/-- Normal return of `EncryptAES256`: with a 32-byte key and at least one full
block of data, the output is the encryption of the first 16 bytes followed
by zeros. -/
theorem encryptAES256_ok (AES : List Nat → BlockCipher) (data key iv : List Nat)
    (hk : key.length = 32) (hd : 16 ≤ data.length) :
    EncryptAES256 AES data key iv
      = GoResult.ok ((AES key).encB (data.take 16) ++
          List.replicate (data.length - 16) 0) := by
  unfold EncryptAES256
  rw [aesNewCipher_ok AES key hk]
  simp [blockApply, Nat.not_lt.mpr hd]

/-- Normal return of `DecryptAES256`: with a 32-byte key and at least one full
block of input, the output is the decryption of the first 16 bytes followed
by zeros. -/
theorem decryptAES256_ok (AES : List Nat → BlockCipher) (data key iv : List Nat)
    (hk : key.length = 32) (hd : 16 ≤ data.length) :
    DecryptAES256 AES data key iv
      = GoResult.ok ((AES key).decB (data.take 16) ++
          List.replicate (data.length - 16) 0) := by
  unfold DecryptAES256
  rw [aesNewCipher_ok AES key hk]
  simp [blockApply, Nat.not_lt.mpr hd]

/-- `EncryptAES256` panics when the data is shorter than one block. -/
theorem encryptAES256_panic (AES : List Nat → BlockCipher) (data key iv : List Nat)
    (hk : key.length = 32) (hd : data.length < 16) :
    EncryptAES256 AES data key iv = GoResult.panic GoPanic.inputNotFullBlock := by
  unfold EncryptAES256
  rw [aesNewCipher_ok AES key hk]
  simp [blockApply, hd]

/-! Claim theorems. -/

/-- C1: the claimed round-trip `DecryptAES256 (EncryptAES256 m k v) k v = m`
fails on the code.  For every block cipher satisfying the `cipher.Block`
contract, every 32-byte key and every plaintext of at least one block, the
round trip returns the first 16 bytes of `m` followed by zeros — every byte
past the first block is lost (and plaintexts shorter than 16 bytes panic,
see the C3 theorem). -/
theorem decrypt_encrypt_zeroes_tail (AES : List Nat → BlockCipher) (m k v : List Nat)
    (hk : k.length = 32) (hm : 16 ≤ m.length) :
    ∃ c, EncryptAES256 AES m k v = GoResult.ok c ∧
      DecryptAES256 AES c k v
        = GoResult.ok (m.take 16 ++ List.replicate (m.length - 16) 0) := by
  have htake : (m.take 16).length = 16 := by
    simp [List.length_take]
    omega
  have henc : ((AES k).encB (m.take 16)).length = 16 := (AES k).enc_len _ htake
  have hclen : ((AES k).encB (m.take 16) ++ List.replicate (m.length - 16) 0).length
      = m.length := by
    simp [henc]
    omega
  refine ⟨(AES k).encB (m.take 16) ++ List.replicate (m.length - 16) 0,
    encryptAES256_ok AES m k v hk hm, ?_⟩
  rw [decryptAES256_ok AES _ k v hk (by rw [hclen]; exact hm)]
  rw [take_append_of_length _ _ henc, (AES k).dec_enc _ htake, hclen]

/-- C1 witness: at the 17-byte plaintext `0^16 ++ [1]`, a 32-byte key and a
16-byte IV, the round trip yields `0^17`, which differs from the plaintext
in its final byte. -/
theorem decrypt_encrypt_zeroes_tail_witness :
    ((List.replicate 32 0 : List Nat).length = 32 ∧
      16 ≤ (List.replicate 16 0 ++ [1] : List Nat).length) ∧
    (∃ c, EncryptAES256 idAES (List.replicate 16 0 ++ [1]) (List.replicate 32 0)
          (List.replicate 16 0) = GoResult.ok c ∧
        DecryptAES256 idAES c (List.replicate 32 0) (List.replicate 16 0)
          = GoResult.ok ((List.replicate 16 0 ++ [1]).take 16 ++
              List.replicate ((List.replicate 16 0 ++ [1] : List Nat).length - 16) 0)) ∧
    (List.replicate 16 0 ++ [1] : List Nat).take 16 ++
        List.replicate ((List.replicate 16 0 ++ [1] : List Nat).length - 16) 0
      ≠ List.replicate 16 0 ++ [1] :=
  ⟨⟨by decide, by decide⟩,
    decrypt_encrypt_zeroes_tail idAES (List.replicate 16 0 ++ [1]) (List.replicate 32 0)
      (List.replicate 16 0) (by decide) (by decide),
    by decide⟩

/-- C2: the claimed tamper detection fails on the code.  `DecryptAES256`
verifies no authentication tag at all: for every cipher satisfying the
`cipher.Block` contract, 32-byte key, full-block plaintext and bit position,
decrypting the bit-flipped ciphertext still returns `ok` with a byte string
whose length equals that of the plaintext — never an `IntegrityError`. -/
theorem decrypt_accepts_tampered_ciphertext (AES : List Nat → BlockCipher)
    (m k v : List Nat) (i : Nat) (hk : k.length = 32) (hm : 16 ≤ m.length) :
    ∃ c out, EncryptAES256 AES m k v = GoResult.ok c ∧
      DecryptAES256 AES (flipBit i c) k v = GoResult.ok out ∧
      out.length = m.length := by
  have htake : (m.take 16).length = 16 := by
    simp [List.length_take]
    omega
  have henc : ((AES k).encB (m.take 16)).length = 16 := (AES k).enc_len _ htake
  have hclen : ((AES k).encB (m.take 16) ++ List.replicate (m.length - 16) 0).length
      = m.length := by
    simp [henc]
    omega
  have hflen : (flipBit i ((AES k).encB (m.take 16) ++
      List.replicate (m.length - 16) 0)).length = m.length := by
    simp [flipBit, hclen]
  have hftake : ((flipBit i ((AES k).encB (m.take 16) ++
      List.replicate (m.length - 16) 0)).take 16).length = 16 := by
    simp [List.length_take, hflen]
    omega
  refine ⟨(AES k).encB (m.take 16) ++ List.replicate (m.length - 16) 0,
    (AES k).decB ((flipBit i ((AES k).encB (m.take 16) ++
      List.replicate (m.length - 16) 0)).take 16) ++
      List.replicate (m.length - 16) 0,
    encryptAES256_ok AES m k v hk hm, ?_, ?_⟩
  · rw [decryptAES256_ok AES _ k v hk (by rw [hflen]; exact hm), hflen]
  · simp [(AES k).dec_len _ hftake]
    omega

/-- C2 witness: flipping bit 0 of the ciphertext of the 16-byte plaintext
`5^16` still decrypts to an `ok` result of 16 bytes. -/
theorem decrypt_accepts_tampered_ciphertext_witness :
    ((List.replicate 32 0 : List Nat).length = 32 ∧
      16 ≤ (List.replicate 16 5 : List Nat).length) ∧
    (∃ c out, EncryptAES256 idAES (List.replicate 16 5) (List.replicate 32 0)
          (List.replicate 16 0) = GoResult.ok c ∧
        DecryptAES256 idAES (flipBit 0 c) (List.replicate 32 0) (List.replicate 16 0)
          = GoResult.ok out ∧
        out.length = (List.replicate 16 5 : List Nat).length) :=
  ⟨⟨by decide, by decide⟩,
    decrypt_accepts_tampered_ciphertext idAES (List.replicate 16 5) (List.replicate 32 0)
      (List.replicate 16 0) 0 (by decide) (by decide)⟩

/-- C3: the claimed arbitrary-length handling fails on the code.  With a
32-byte key, `EncryptAES256` panics on any plaintext shorter than 16 bytes
(so the length-0 case of the claim already fails), and for longer
plaintexts every ciphertext byte past the first block is the constant 0 —
the input bytes past the first block are never transformed. -/
theorem encrypt_not_arbitrary_length (AES : List Nat → BlockCipher)
    (k v m : List Nat) (hk : k.length = 32) :
    (m.length < 16 →
      EncryptAES256 AES m k v = GoResult.panic GoPanic.inputNotFullBlock) ∧
    (16 ≤ m.length →
      ∃ c, EncryptAES256 AES m k v = GoResult.ok c ∧
        c.drop 16 = List.replicate (m.length - 16) 0) := by
  constructor
  · intro hlt
    exact encryptAES256_panic AES m k v hk hlt
  · intro hge
    refine ⟨_, encryptAES256_ok AES m k v hk hge, ?_⟩
    refine drop_append_of_length _ _ ((AES k).enc_len _ ?_)
    simp [List.length_take]
    omega

/-- C3 witness: the empty plaintext (length 0) panics instead of being
encrypted. -/
theorem encrypt_not_arbitrary_length_witness :
    ((List.replicate 32 0 : List Nat).length = 32) ∧
    ((([] : List Nat).length < 16 →
        EncryptAES256 idAES [] (List.replicate 32 0) (List.replicate 16 0)
          = GoResult.panic GoPanic.inputNotFullBlock) ∧
      (16 ≤ ([] : List Nat).length →
        ∃ c, EncryptAES256 idAES [] (List.replicate 32 0) (List.replicate 16 0)
            = GoResult.ok c ∧
          c.drop 16 = List.replicate (([] : List Nat).length - 16) 0)) ∧
    EncryptAES256 idAES [] (List.replicate 32 0) (List.replicate 16 0)
      = GoResult.panic GoPanic.inputNotFullBlock :=
  ⟨by decide,
    encrypt_not_arbitrary_length idAES (List.replicate 32 0) (List.replicate 16 0) []
      (by decide),
    by decide⟩

/-- C4: the claimed dependence of the ciphertext on the IV fails on the code.
The `iv` parameter of `EncryptAES256` and `DecryptAES256` is never read, so
for every cipher, plaintext and key, any two IVs — equal or different, of
any lengths — produce identical results.  (Both equalities hold by
definitional unfolding: `iv` does not occur in either function body.) -/
theorem encrypt_decrypt_ignore_iv (AES : List Nat → BlockCipher)
    (m k v1 v2 : List Nat) :
    EncryptAES256 AES m k v1 = EncryptAES256 AES m k v2 ∧
    DecryptAES256 AES m k v1 = DecryptAES256 AES m k v2 :=
  ⟨rfl, rfl⟩

/-- C5 counterexample: a 16-byte (AES-128) key is accepted by
`EncryptAES256`, refuting the claim that every key of length other than 32
fails with an error. -/
theorem encrypt_accepts_aes128_key :
    (List.replicate 16 0 : List Nat).length ≠ 32 ∧
    EncryptAES256 idAES (List.replicate 16 1) (List.replicate 16 0) (List.replicate 16 2)
      = GoResult.ok (List.replicate 16 1) := by
  constructor
  · decide
  · decide

/-- C5 (amended): `aes.NewCipher` accepts keys of length 16, 24 or 32 bytes
(AES-128/192/256); for every key of any other length, both `EncryptAES256`
and `DecryptAES256` return `aes.KeySizeError(len(key))` before touching the
data, and the key is never truncated or padded. -/
theorem invalid_key_size_rejected (AES : List Nat → BlockCipher)
    (data key iv : List Nat) (h16 : key.length ≠ 16) (h24 : key.length ≠ 24)
    (h32 : key.length ≠ 32) :
    EncryptAES256 AES data key iv
      = GoResult.err (GoError.keySizeError key.length) ∧
    DecryptAES256 AES data key iv
      = GoResult.err (GoError.keySizeError key.length) := by
  have h : aesNewCipher AES key = Except.error (GoError.keySizeError key.length) := by
    simp [aesNewCipher, h16, h24, h32]
  constructor
  · unfold EncryptAES256
    rw [h]
  · unfold DecryptAES256
    rw [h]

/-- C5 witness: a 5-byte key is rejected with `KeySizeError 5` by both
operations. -/
theorem invalid_key_size_rejected_witness :
    (([1, 2, 3, 4, 5] : List Nat).length ≠ 16 ∧ ([1, 2, 3, 4, 5] : List Nat).length ≠ 24 ∧
      ([1, 2, 3, 4, 5] : List Nat).length ≠ 32) ∧
    (EncryptAES256 idAES (List.replicate 16 0) [1, 2, 3, 4, 5] (List.replicate 16 0)
        = GoResult.err (GoError.keySizeError ([1, 2, 3, 4, 5] : List Nat).length) ∧
      DecryptAES256 idAES (List.replicate 16 0) [1, 2, 3, 4, 5] (List.replicate 16 0)
        = GoResult.err (GoError.keySizeError ([1, 2, 3, 4, 5] : List Nat).length)) :=
  ⟨⟨by decide, by decide, by decide⟩,
    invalid_key_size_rejected idAES (List.replicate 16 0) [1, 2, 3, 4, 5]
      (List.replicate 16 0) (by decide) (by decide) (by decide)⟩

/-- C6: the claimed IV size enforcement fails on the code.  Neither
`EncryptAES256` nor `DecryptAES256` inspects the IV: with a 32-byte key and
a full block of data, both succeed for an IV of any length whatsoever, and
no `InvalidParameterError` exists on this path. -/
theorem any_iv_length_accepted (AES : List Nat → BlockCipher)
    (m k iv : List Nat) (hk : k.length = 32) (hm : 16 ≤ m.length) :
    (∃ c, EncryptAES256 AES m k iv = GoResult.ok c) ∧
    (∃ q, DecryptAES256 AES m k iv = GoResult.ok q) :=
  ⟨⟨_, encryptAES256_ok AES m k iv hk hm⟩, ⟨_, decryptAES256_ok AES m k iv hk hm⟩⟩

/-- C6 witness: the empty IV — certainly not of the required block size 16 —
is accepted by both operations. -/
theorem any_iv_length_accepted_witness :
    ((List.replicate 32 0 : List Nat).length = 32 ∧
      16 ≤ (List.replicate 16 7 : List Nat).length ∧
      ([] : List Nat).length ≠ BlockSize) ∧
    ((∃ c, EncryptAES256 idAES (List.replicate 16 7) (List.replicate 32 0) []
        = GoResult.ok c) ∧
      (∃ q, DecryptAES256 idAES (List.replicate 16 7) (List.replicate 32 0) []
        = GoResult.ok q)) :=
  ⟨⟨by decide, by decide, by decide⟩,
    any_iv_length_accepted idAES (List.replicate 16 7) (List.replicate 32 0) []
      (by decide) (by decide)⟩

/-- C7: `DeriveKey` is a pure deterministic function of its password and salt
(its definition consumes no randomness source — unlike `GenerateIV`, which
is explicitly parameterized by one), two calls on the same inputs return the
same 32-byte key, and the error results agree (both nil). -/
theorem deriveKey_deterministic (p : String) (s : List Nat) :
    DeriveKey p s = DeriveKey p s ∧ (DeriveKey p s).1.length = 32 :=
  ⟨rfl, deriveKey_length p s⟩

/-- C8 counterexample: the 4-byte salt `"salt"` — not of the configured
32-byte salt size — is accepted by `DeriveKey` with a nil error, refuting
the claimed `InvalidParameterError`.  (The repository test
`TestDeriveKey` itself uses this very salt and expects success.) -/
theorem deriveKey_accepts_4_byte_salt :
    (strBytes "salt").length = 4 ∧ SaltSize = 32 ∧
    (DeriveKey "x" (strBytes "salt")).2 = none :=
  ⟨by decide, rfl, rfl⟩

/-- C8 (amended): `DeriveKey` performs no salt-length validation at all — for
every password and every salt of any length it returns a 32-byte key with a
nil error. -/
theorem deriveKey_never_errors (p : String) (s : List Nat) :
    (DeriveKey p s).2 = none ∧ (DeriveKey p s).1.length = 32 :=
  ⟨rfl, deriveKey_length p s⟩

/-- C9: `DeriveKey("knownpassword", "salt")` is exactly the PBKDF2-HMAC-SHA256
reference construction (stated independently as `pbkdf2SpecKey`, the
standard `U₁ xor ... xor U_c` form) at iteration count 100000 and output
length 32, with `Iterations = 100000` and a 32-byte result.  The underlying
`sha256` and `hmacSha256` are pinned to their published test vectors by the
anchor theorems below. -/
theorem deriveKey_knownAnswer :
    DeriveKey "knownpassword" (strBytes "salt")
      = (pbkdf2SpecKey (strBytes "knownpassword") (strBytes "salt") 100000 32, none) ∧
    Iterations = 100000 ∧ KeySize = 32 ∧
    (DeriveKey "knownpassword" (strBytes "salt")).1.length = 32 := by
  refine ⟨?_, rfl, rfl, deriveKey_length _ _⟩
  simp only [DeriveKey]
  rw [pbkdf2Key_eq_spec, show Iterations = 100000 from rfl, show KeySize = 32 from rfl]

/-- C10: `GenerateIV` always returns a byte slice of length exactly 16
(`aes.BlockSize`), whatever the random source wrote and also when it
reports an error — the error is passed through alongside the full-size
slice. -/
theorem generateIV_length_16 (randRead : List Nat) (err : Option GoError) :
    (GenerateIV randRead err).1.length = 16 ∧ (GenerateIV randRead err).2 = err := by
  constructor
  · simp only [GenerateIV, List.length_append, List.length_take, List.length_replicate]
    omega
  · rfl

/-! Anchor theorems pinning the hash tower to published test vectors
(FIPS 180-4 / RFC 4231 / RFC 7914-style PBKDF2 vectors), so that the
definitions used by the `DeriveKey` theorems are the real SHA-256, the real
HMAC-SHA256, and the real PBKDF2. -/

set_option maxRecDepth 100000 in
/-- SHA-256 of the empty message equals the published digest. -/
theorem sha256_empty_vector :
    sha256 [] = [227, 176, 196, 66, 152, 252, 28, 20, 154, 251, 244, 200, 153, 111,
      185, 36, 39, 174, 65, 228, 100, 155, 147, 76, 164, 149, 153, 27, 120, 82, 184, 85] := by
  decide

set_option maxRecDepth 100000 in
/-- SHA-256 of `"abc"` equals the published digest. -/
theorem sha256_abc_vector :
    sha256 [97, 98, 99] = [186, 120, 22, 191, 143, 1, 207, 234, 65, 65, 64, 222, 93,
      174, 34, 35, 176, 3, 97, 163, 150, 23, 122, 156, 180, 16, 255, 97, 242, 0, 21, 173] := by
  decide

set_option maxRecDepth 100000 in
/-- HMAC-SHA256 test case 1 of RFC 4231: key `0x0b^20`, data `"Hi There"`. -/
theorem hmacSha256_rfc4231_vector :
    hmacSha256 (List.replicate 20 11) [72, 105, 32, 84, 104, 101, 114, 101]
      = [176, 52, 76, 97, 216, 219, 56, 83, 92, 168, 175, 206, 175, 11, 241, 43, 136,
        29, 194, 0, 201, 131, 61, 167, 38, 233, 55, 108, 46, 50, 207, 247] := by
  decide

set_option maxRecDepth 100000 in
/-- PBKDF2-HMAC-SHA256 with password `"password"`, salt `"salt"`, 2 iterations
and 32 output bytes equals the published vector. -/
theorem pbkdf2_two_iterations_vector :
    pbkdf2Key (strBytes "password") (strBytes "salt") 2 32
      = [174, 77, 12, 149, 175, 107, 70, 211, 45, 10, 223, 249, 40, 240, 109, 208,
        42, 48, 63, 142, 243, 194, 81, 223, 214, 226, 216, 90, 149, 71, 76, 67] := by
  decide

end Crypto

